import Mathlib

/-!
Verification of the cleaning-rule execution engine
(`data_steward/cdr_cleaner/clean_cdr_engine.py`).

The engine is embedded shallowly:

* Python values that may be `None` are modelled by `PyVal` (a query dict
  stores `Option PyVal` per key: `none` means the key is absent, while
  `some .pnone` means the key is present and bound to Python `None`).
* Exceptions are modelled by `Except EngineError`.
* The warehouse client is an oracle: a pure function from a submission
  (query text, job configuration, job-id prefix) to either an
  infrastructure error or a finished `QueryJob` (job id, error list, and
  whether blocking on the result raises).
* Effects that the engine only observes through control flow (logging of
  the compatibility warning, the setup call) are reified as data
  (`warnings`, `setup_err`).
-/

namespace CleanCdrEngine

/-- A Python runtime value as it appears in query dictionaries. -/
inductive PyVal where
  | pnone : PyVal
  | pstr : String → PyVal
  | pbool : Bool → PyVal
  deriving DecidableEq, Repr

/-- Python `str(v)`, used when a value is interpolated into an f-string. -/
def PyVal.pystr : PyVal → String
  | .pnone => "None"
  | .pstr s => s
  | .pbool true => "True"
  | .pbool false => "False"

/-- Transient transport errors raised by the warehouse client
(`GoogleCloudError`, `concurrent.futures.TimeoutError`). -/
inductive InfraError where
  | googleCloudError (msg : String) : InfraError
  | timeoutError : InfraError
  deriving DecidableEq, Repr

/-- Descriptive rule metadata kept in `rule_info` (the callable entries of
the Python dict are omitted: they are the functions the embedding already
carries separately). -/
structure RuleInfo where
  function_name : String
  module_name : String
  line_no : Nat
  deriving DecidableEq, Repr

/-- The Python exceptions the engine can raise or propagate.
`missingParams` is the `ValueError` raised by `get_custom_kwargs`; it
carries the missing-parameter list that the Python message interpolates.
`queryErrors` is the `RuntimeError` raised by `run_queries` when a
finished job carries a non-empty error list; it carries the rule metadata
and the query text that the Python message template renders. -/
inductive EngineError where
  | keyError (key : String) : EngineError
  | valueError (msg : String) : EngineError
  | typeError (msg : String) : EngineError
  | attributeError (msg : String) : EngineError
  | osError (msg : String) : EngineError
  | missingParams (missing : List String) (clazzName : String) : EngineError
  | infra (e : InfraError) : EngineError
  | queryErrors (info : RuleInfo) (query : PyVal) (errors : List String) : EngineError
  deriving DecidableEq, Repr

/-- A query dictionary produced by a cleaning rule.  Each field models one
key of the Python dict; `none` = key absent, `some .pnone` = key present
with value `None`.  Key names follow the `cdr_consts` constants
(`QUERY`, `DESTINATION_TABLE`, `DESTINATION_DATASET`, `LEGACY_SQL`,
`DISPOSITION`). -/
structure QueryDict where
  query : Option PyVal := none
  destination_table : Option PyVal := none
  destination_dataset : Option PyVal := none
  use_legacy_sql : Option PyVal := none
  write_disposition : Option PyVal := none
  deriving DecidableEq, Repr

/-- Python `d.get(key)` / `d.get(key, default)`: the stored value when the
key is present, the default otherwise. -/
def dictGet (field : Option PyVal) (default : PyVal) : PyVal :=
  field.getD default

/-- Python `d[key]`: raises `KeyError` when the key is absent. -/
def dictItem (field : Option PyVal) (key : String) : Except EngineError PyVal :=
  match field with
  | some v => .ok v
  | none => .error (.keyError key)

/-- Modelled from the spec: `WRITE_EMPTY` is the default write disposition
(`bq_consts.WRITE_EMPTY`, whose defining module is not part of the
sources at hand). -/
def WRITE_EMPTY : PyVal := .pstr "WRITE_EMPTY"

/-- A fully-qualified destination table reference
(`google.cloud.bigquery.TableReference`). -/
structure TableReference where
  project : String
  dataset_id : String
  table_id : String
  deriving DecidableEq, Repr

/-- Splits a fully-qualified id on `.` and `:` like the vendor SDK's
`_helpers._split_id`. -/
def splitIdAux : List Char → List Char → List (List Char)
  | [], acc => [acc.reverse]
  | c :: cs, acc =>
    if c = '.' ∨ c = ':' then acc.reverse :: splitIdAux cs []
    else splitIdAux cs (c :: acc)

/-- Splits a fully-qualified id into its components. -/
def splitId (s : String) : List String :=
  (splitIdAux s.toList []).map List.asString

/-- `TableReference.from_string` with no default project: accepts exactly a
three-part `project.dataset.table` id, otherwise raises `ValueError`
(a two-part id also raises because no default project is supplied). -/
def TableReference.from_string (table_id : String) : Except EngineError TableReference :=
  match splitId table_id with
  | [p, d, t] => .ok ⟨p, d, t⟩
  | _ => .error (.valueError ("table_id must be a fully-qualified ID: " ++ table_id))

/-- A `google.cloud.bigquery.job.QueryJobConfig`.  All fields start unset
(`none`); the engine assigns them only on the destination branch. -/
structure QueryJobConfig where
  destination : Option TableReference := none
  use_legacy_sql : Option PyVal := none
  allow_large_results : Option PyVal := none
  write_disposition : Option PyVal := none
  deriving DecidableEq, Repr

/-- `generate_job_config(project_id, query_dict)`: returns the default
configuration when `query_dict.get(DESTINATION_TABLE)` is `None`;
otherwise builds the destination reference from the f-string
`f'{project_id}.{query_dict[DESTINATION_DATASET]}.{query_dict[DESTINATION_TABLE]}'`
and assigns `use_legacy_sql`, `allow_large_results` (copied from
`use_legacy_sql`) and `write_disposition`. -/
def generate_job_config (project_id : String) (query_dict : QueryDict) :
    Except EngineError QueryJobConfig := do
  let job_config : QueryJobConfig := {}
  if dictGet query_dict.destination_table .pnone = .pnone then
    return job_config
  let dest_dataset ← dictItem query_dict.destination_dataset "destination_dataset"
  let dest_table ← dictItem query_dict.destination_table "destination_table"
  let destination_table ← TableReference.from_string
    (project_id ++ "." ++ dest_dataset.pystr ++ "." ++ dest_table.pystr)
  let use_legacy_sql := dictGet query_dict.use_legacy_sql (.pbool false)
  -- allow_large_results can only be used if use_legacy_sql=True
  let allow_large_results := use_legacy_sql
  let write_disposition := dictGet query_dict.write_disposition WRITE_EMPTY
  return { job_config with
    destination := some destination_table
    use_legacy_sql := some use_legacy_sql
    allow_large_results := some allow_large_results
    write_disposition := some write_disposition }

/-- One declared parameter of a rule's construction signature, as seen by
`inspect.signature(clazz).parameters`: its name and whether its default is
`inspect.Parameter.empty` (i.e. the parameter is required). -/
structure Param where
  name : String
  default_is_empty : Bool
  deriving DecidableEq, Repr

/-- Modelled from the spec: `ce_consts.CLEAN_ENGINE_REQUIRED_PARAMS`, the
engine-supplied parameter names the resolver excludes ("project id,
dataset id, sandbox dataset id, table namer"); the `constants` module that
defines it is not among the sources at hand. -/
def CLEAN_ENGINE_REQUIRED_PARAMS : List String :=
  ["project_id", "dataset_id", "sandbox_dataset_id", "table_namer"]

/-- A constructed rule object: the value of `instance.get_query_specs()`
and the observable outcome of `instance.setup_rule(client)` for this
run's client (`none` = the setup call returns normally). -/
structure Instance where
  get_query_specs : List QueryDict
  setup_err : Option InfraError

/-- A structured (class-based) rule's constructor, as an oracle: called
with the engine-supplied positional arguments, optionally the table
namer, and the filtered keyword options.  A constructor that does not
accept the table-namer argument answers the `some table_namer` call with
a `typeError`. -/
structure StructuredShape where
  construct : String → String → String → Option String →
    List (String × PyVal) → Except EngineError Instance

/-- The two rule authoring styles the adapter distinguishes by capability
inspection (`inspect.isclass(clazz) and issubclass(clazz, BaseCleaningRule)`):
a structured rule, or a legacy plain callable returning query dicts. -/
inductive ClazzShape where
  | structured (s : StructuredShape)
  | legacy (f : String → String → String → List (String × PyVal) → List QueryDict)

/-- A candidate rule `clazz`: its `__name__`, its signature parameters,
its reflection data (`inspect.getmodule` result and `inspect.getsourcelines`
availability — `none` models a failed lookup), and its shape. -/
structure Clazz where
  name : String
  params : List Param
  module : Option String
  srcline : Option Nat
  shape : ClazzShape

/-- `get_custom_kwargs(clazz, **kwargs)`: drops the engine-supplied
parameter names from the declared parameters, keeps only supplied options
whose name matches a remaining declared parameter, and raises the
missing-parameter `ValueError` when a remaining required parameter is
not among the kept options. -/
def get_custom_kwargs (clazz : Clazz) (kwargs : List (String × PyVal)) :
    Except EngineError (List (String × PyVal)) :=
  let params := clazz.params
  let rule_params := params.filter
    (fun p => !(CLEAN_ENGINE_REQUIRED_PARAMS.contains p.name))
  let kwargs := kwargs.filter
    (fun kv => (rule_params.map Param.name).contains kv.1)
  let missing := (rule_params.filter (fun p =>
      !((kwargs.map Prod.fst).contains p.name) && p.default_is_empty)).map Param.name
  if missing ≠ [] then .error (.missingParams missing clazz.name)
  else .ok kwargs

/-- The uniform triple `infer_rule` returns, with the engine-observable
effects reified: the produced query list, the setup outcome, the
descriptive `rule_info`, and the compatibility warnings logged during
adaptation. -/
structure RuleResolution where
  query_list : List QueryDict
  setup_err : Option InfraError
  rule_info : RuleInfo
  warnings : List String

/-- `infer_rule(clazz, project_id, dataset_id, sandbox_dataset_id,
table_namer, **kwargs)`: resolves the keyword options first, then either
instantiates a structured rule (retrying without the table namer and
logging a compatibility warning when the constructor raises `TypeError`)
or wraps a legacy callable, and extracts the descriptive metadata
(`__name__`, defining module, source line) — a failed module lookup
raises `AttributeError`, unavailable source lines raise `OSError`. -/
def infer_rule (clazz : Clazz)
    (project_id dataset_id sandbox_dataset_id table_namer : String)
    (kwargs : List (String × PyVal)) : Except EngineError RuleResolution := do
  let kwargs ← get_custom_kwargs clazz kwargs
  match clazz.shape with
  | .structured s =>
    let instWarn ←
      match s.construct project_id dataset_id sandbox_dataset_id
          (some table_namer) kwargs with
      | .ok inst => Except.ok (inst, ([] : List String))
      | .error (.typeError _) =>
        -- LOGGER.warning(f"{clazz.__name__} does not accept the table_namer property yet.")
        match s.construct project_id dataset_id sandbox_dataset_id none kwargs with
        | .ok inst =>
          Except.ok (inst,
            [clazz.name ++ " does not accept the table_namer property yet."])
        | .error e => Except.error e
      | .error e => Except.error e
    let function_name := "get_query_specs"
    let module_name ← match clazz.module with
      | some m => Except.ok m
      | none =>
        Except.error (EngineError.attributeError "NoneType has no attribute __name__")
    let line_no ← match clazz.srcline with
      | some n => Except.ok n
      | none => Except.error (EngineError.osError "could not get source code")
    Except.ok { query_list := instWarn.1.get_query_specs
                setup_err := instWarn.1.setup_err
                rule_info := ⟨function_name, module_name, line_no⟩
                warnings := instWarn.2 }
  | .legacy f =>
    let function_name := clazz.name
    let module_name ← match clazz.module with
      | some m => Except.ok m
      | none =>
        Except.error (EngineError.attributeError "NoneType has no attribute __name__")
    let line_no ← match clazz.srcline with
      | some n => Except.ok n
      | none => Except.error (EngineError.osError "could not get source code")
    Except.ok { query_list := f project_id dataset_id sandbox_dataset_id kwargs
                setup_err := none
                rule_info := ⟨function_name, module_name, line_no⟩
                warnings := [] }

/-- A finished warehouse job handle: its id, the error list it carries
once terminal, and whether blocking on `result()` raises an
infrastructure error. -/
structure QueryJob where
  job_id : String
  errors : List String
  result_err : Option InfraError
  deriving DecidableEq, Repr

/-- The warehouse client, as a pure oracle: the project it is bound to,
and `query(sql, job_config, job_id_pref)` returning either a submission
error or the finished job handle. -/
structure Client where
  project : String
  query : PyVal → QueryJobConfig → String → Except InfraError QueryJob

/-- Python `s[:n]` on a string. -/
def takeChars (n : Nat) (s : String) : String := (s.toList.take n).asString

/-- Python `s.split('.')`. -/
def splitDotAux : List Char → List Char → List (List Char)
  | [], acc => [acc.reverse]
  | c :: cs, acc =>
    if c = '.' then acc.reverse :: splitDotAux cs []
    else splitDotAux cs (c :: acc)

/-- `rule_info[MODULE_NAME].split('.')[-1][:10]`, the module short name
used to build the job-id stub. -/
def moduleShortName (rule_info : RuleInfo) : String :=
  takeChars 10
    (((splitDotAux rule_info.module_name.toList []).map List.asString).getLastD "")

/-- The loop body of `run_queries`, with the Python-local `jobs` list made
explicit: processes the queries in order, appending each submitted job to
`jobs` before waiting on it, and stops at the first raised error,
returning the `jobs` list as it stood at that moment together with the
error (`none` = the loop finished normally). -/
def runQueriesAux (client : Client) (rule_info : RuleInfo) :
    List QueryDict → List QueryJob → List QueryJob × Option EngineError
  | [], jobs => (jobs, none)
  | query_dict :: rest, jobs =>
    match generate_job_config client.project query_dict with
    | .error e => (jobs, some e)
    | .ok job_config =>
      match client.query (dictGet query_dict.query .pnone) job_config
          (moduleShortName rule_info ++ "_") with
      | .error e => (jobs, some (.infra e))
      | .ok query_job =>
        let jobs := jobs ++ [query_job]
        match query_job.result_err with
        | some e => (jobs, some (.infra e))
        | none =>
          if query_job.errors ≠ [] then
            (jobs, some (.queryErrors rule_info
              (dictGet query_dict.query .pnone) query_job.errors))
          else runQueriesAux client rule_info rest jobs

/-- `run_queries(client, query_list, rule_info)`: returns the job list
when every query finishes cleanly; any error propagates out of the
function (the `except` clause only logs and re-raises), so the caller
never receives the partially filled `jobs` list. -/
def run_queries (client : Client) (query_list : List QueryDict)
    (rule_info : RuleInfo) : Except EngineError (List QueryJob) :=
  match runQueriesAux client rule_info query_list [] with
  | (jobs, none) => .ok jobs
  | (_, some e) => .error e

/-- A pipeline rule as the driver receives it: a tuple whose first
element (`rule[0]`) is the class or function; the engine reads nothing
else from the tuple. -/
structure Rule where
  clazz : Clazz

/-- The loop body of `clean_dataset`, with the Python-local `all_jobs`
accumulator explicit: adapts each rule, runs its setup, runs its
queries, and extends `all_jobs` with the returned jobs; the first error
aborts the run. -/
def cleanDatasetAux (client : Client)
    (project_id dataset_id sandbox_dataset_id table_namer : String)
    (kwargs : List (String × PyVal)) :
    List Rule → List QueryJob → Except EngineError (List QueryJob)
  | [], all_jobs => .ok all_jobs
  | rule :: rest, all_jobs =>
    match infer_rule rule.clazz project_id dataset_id sandbox_dataset_id
        table_namer kwargs with
    | .error e => .error e
    | .ok res =>
      match res.setup_err with
      | some e => .error (.infra e)
      | none =>
        match run_queries client res.query_list res.rule_info with
        | .error e => .error e
        | .ok jobs =>
          cleanDatasetAux client project_id dataset_id sandbox_dataset_id
            table_namer kwargs rest (all_jobs ++ jobs)

/-- `clean_dataset(project_id, dataset_id, sandbox_dataset_id, rules,
table_namer, **kwargs)`: the pipeline driver; the shared client (built
once per run in Python) is passed as the oracle. -/
def clean_dataset (client : Client)
    (project_id dataset_id sandbox_dataset_id : String) (rules : List Rule)
    (table_namer : String) (kwargs : List (String × PyVal)) :
    Except EngineError (List QueryJob) :=
  cleanDatasetAux client project_id dataset_id sandbox_dataset_id table_namer
    kwargs rules []

/-- The loop body of `get_query_list`, with the Python-local
`all_queries_list` accumulator explicit. -/
def getQueryListAux (project_id dataset_id sandbox_dataset_id table_namer : String)
    (kwargs : List (String × PyVal)) :
    List Rule → List QueryDict → Except EngineError (List QueryDict)
  | [], all_queries_list => .ok all_queries_list
  | rule :: rest, all_queries_list =>
    match infer_rule rule.clazz project_id dataset_id sandbox_dataset_id
        table_namer kwargs with
    | .error e => .error e
    | .ok res =>
      getQueryListAux project_id dataset_id sandbox_dataset_id table_namer kwargs
        rest (all_queries_list ++ res.query_list)

/-- `get_query_list(project_id, dataset_id, sandbox_dataset_id, rules,
table_namer, **kwargs)`: the read-only preview entrypoint. -/
def get_query_list (project_id dataset_id sandbox_dataset_id : String)
    (rules : List Rule) (table_namer : String)
    (kwargs : List (String × PyVal)) : Except EngineError (List QueryDict) :=
  getQueryListAux project_id dataset_id sandbox_dataset_id table_namer kwargs
    rules []

/-- The per-rule adaptation both entrypoints perform: `infer_rule` mapped
over the rule list, failing on the first rule that fails to adapt. -/
def ruleResolutions (project_id dataset_id sandbox_dataset_id : String)
    (rules : List Rule) (table_namer : String)
    (kwargs : List (String × PyVal)) : Except EngineError (List RuleResolution) :=
  rules.mapM (fun rule =>
    infer_rule rule.clazz project_id dataset_id sandbox_dataset_id table_namer
      kwargs)

/-- The job `run_queries` obtains for one query dict when configuration
and submission succeed (`none` when either raises). -/
def submittedJob (client : Client) (rule_info : RuleInfo) (query_dict : QueryDict) :
    Option QueryJob :=
  match generate_job_config client.project query_dict with
  | .error _ => none
  | .ok job_config =>
    match client.query (dictGet query_dict.query .pnone) job_config
        (moduleShortName rule_info ++ "_") with
    | .error _ => none
    | .ok query_job => some query_job

/-! ### Concrete inputs used by witnesses and counterexamples -/

/-- A query spec requesting legacy SQL but naming no destination table. -/
def specLegacyNoDest : QueryDict :=
  { query := some (.pstr "SELECT 1"), use_legacy_sql := some (.pbool true),
    write_disposition := some (.pstr "WRITE_TRUNCATE") }

/-- The spec scenario: `destinationTable` set, `destinationDataset`
present but bound to `None`. -/
def specDestNoneDataset : QueryDict :=
  { query := some (.pstr "SELECT 1"), destination_table := some (.pstr "t"),
    destination_dataset := some .pnone }

/-- `destinationTable` set, the `destinationDataset` key entirely absent. -/
def specDestAbsentDataset : QueryDict :=
  { query := some (.pstr "SELECT 1"), destination_table := some (.pstr "t") }

/-- A well-formed destination spec with legacy SQL requested. -/
def specDestLegacy : QueryDict :=
  { query := some (.pstr "SELECT 1"), destination_table := some (.pstr "t"),
    destination_dataset := some (.pstr "d"),
    use_legacy_sql := some (.pbool true) }

/-- The configuration `generate_job_config` builds for `specDestLegacy`. -/
def cfgDestLegacy : QueryJobConfig :=
  { destination := some ⟨"proj", "d", "t"⟩,
    use_legacy_sql := some (.pbool true),
    allow_large_results := some (.pbool true),
    write_disposition := some WRITE_EMPTY }

/-- The configuration `generate_job_config` builds for
`specDestNoneDataset`: the dataset component of the destination is the
string rendering of Python `None`. -/
def cfgNoneDataset : QueryJobConfig :=
  { destination := some ⟨"proj", "None", "t"⟩,
    use_legacy_sql := some (.pbool false),
    allow_large_results := some (.pbool false),
    write_disposition := some WRITE_EMPTY }

/-- `name` denotes a required (no-default) non-engine parameter of
`clazz` that the supplied options do not provide — the condition under
which the resolver must report `name` as missing. -/
def RequiredMissing (clazz : Clazz) (kwargs : List (String × PyVal))
    (name : String) : Prop :=
  ∃ p ∈ clazz.params, p.name = name ∧ p.default_is_empty = true ∧
    name ∉ CLEAN_ENGINE_REQUIRED_PARAMS ∧ name ∉ kwargs.map Prod.fst

/-- The local `rule_params` of `get_custom_kwargs`: declared parameters
minus the engine-supplied names. -/
def gckRuleParams (clazz : Clazz) : List Param :=
  clazz.params.filter (fun p => !(CLEAN_ENGINE_REQUIRED_PARAMS.contains p.name))

/-- The local (re-bound) `kwargs` of `get_custom_kwargs`: supplied
options restricted to declared non-engine parameter names. -/
def gckFiltered (clazz : Clazz) (kwargs : List (String × PyVal)) :
    List (String × PyVal) :=
  kwargs.filter (fun kv => ((gckRuleParams clazz).map Param.name).contains kv.1)

/-- The local `missing` of `get_custom_kwargs`: names of remaining
required parameters not among the kept options. -/
def gckMissing (clazz : Clazz) (kwargs : List (String × PyVal)) : List String :=
  ((gckRuleParams clazz).filter (fun p =>
    !(((gckFiltered clazz kwargs).map Prod.fst).contains p.name) &&
      p.default_is_empty)).map Param.name

/-- The spec's resolver scenario rule: declares `dataset_id` (required,
engine-supplied) and `cutoff_date` (required). -/
def clazzCutoff : Clazz :=
  { name := "cutoff_rule",
    params := [⟨"dataset_id", true⟩, ⟨"cutoff_date", true⟩],
    module := some "rules.cutoff", srcline := some 10,
    shape := .legacy (fun _ _ _ _ => []) }

/-- The spec's resolver scenario options: `cutoff_date` plus an
undeclared `extra`. -/
def kwargsCutoff : List (String × PyVal) :=
  [("cutoff_date", .pstr "2022-01-01"), ("extra", .pstr "ignored")]

/-- A rule that additionally requires `truncation_date`, which
`kwargsCutoff` does not supply. -/
def clazzMissing : Clazz :=
  { name := "truncation_rule",
    params := [⟨"dataset_id", true⟩, ⟨"cutoff_date", true⟩,
               ⟨"truncation_date", true⟩],
    module := some "rules.truncation", srcline := some 20,
    shape := .legacy (fun _ _ _ _ => []) }

/-- The instance an old-style structured rule produces once constructed
without the table namer. -/
def instOld : Instance :=
  { get_query_specs := [{ query := some (.pstr "SELECT 1") }],
    setup_err := none }

/-- A constructor that rejects the table-namer argument with `TypeError`
and succeeds without it. -/
def shapeOld : StructuredShape :=
  { construct := fun _ _ _ tn _ =>
      match tn with
      | some _ => .error (.typeError "unexpected keyword argument table_namer")
      | none => .ok instOld }

/-- A structured rule predating the table-namer signature. -/
def clazzOld : Clazz :=
  { name := "old_style_rule", params := [],
    module := some "rules.old_style", srcline := some 33,
    shape := .structured shapeOld }

/-- A legacy rule whose defining module cannot be determined
(`inspect.getmodule` returns `None`). -/
def clazzNoModule : Clazz :=
  { name := "degraded_rule", params := [], module := none, srcline := some 5,
    shape := .legacy (fun _ _ _ _ => []) }

/-- Rule metadata for the concrete runner scenarios. -/
def ruleInfoEx : RuleInfo := ⟨"get_query_specs", "rules.fail_mod", 7⟩

/-- A query that succeeds under `clientEx`. -/
def qGood : QueryDict := { query := some (.pstr "SELECT 1") }

/-- A query whose finished job carries a non-empty error list under
`clientEx`. -/
def qBad : QueryDict := { query := some (.pstr "SELECT bad") }

/-- A query after the failing one — never submitted. -/
def qNever : QueryDict := { query := some (.pstr "SELECT 3") }

/-- The finished job `clientEx` returns for `qGood`. -/
def jGoodEx : QueryJob := ⟨"fail_mod_job", [], none⟩

/-- The finished job `clientEx` returns for `qBad`: terminal with a
non-empty error list. -/
def jBadEx : QueryJob := ⟨"fail_mod_job2", ["boom"], none⟩

/-- A warehouse oracle under which `qBad`'s job reports errors and every
other query finishes cleanly. -/
def clientEx : Client :=
  { project := "proj",
    query := fun sql _ stub =>
      if sql = .pstr "SELECT bad" then .ok ⟨stub ++ "job2", ["boom"], none⟩
      else .ok ⟨stub ++ "job", [], none⟩ }

/-- A second clean query for the two-rule pipeline scenario. -/
def qTwo : QueryDict := { query := some (.pstr "SELECT 2") }

/-- A legacy rule producing one query. -/
def clazzA : Clazz :=
  { name := "rule_a", params := [], module := some "rules.a_mod",
    srcline := some 1, shape := .legacy (fun _ _ _ _ => [qGood]) }

/-- A legacy rule producing two queries. -/
def clazzB : Clazz :=
  { name := "rule_b", params := [], module := some "rules.b_mod",
    srcline := some 2, shape := .legacy (fun _ _ _ _ => [qTwo, qGood]) }

/-- The two-rule pipeline `[A, B]`. -/
def rulesAB : List Rule := [⟨clazzA⟩, ⟨clazzB⟩]

/-! ### Theorems about `generate_job_config` -/

/-- Claim C10: a query spec whose `destinationTable` lookup yields `None`
(key absent, or present and bound to `None`) makes `generate_job_config`
return the default configuration unchanged — no destination, and any
`useLegacySql` or `writeDisposition` values in the spec are ignored,
since every configuration field is assigned only on the
destination-present branch. -/
theorem claim_C10_default_config (project_id : String) (q : QueryDict)
    (h : dictGet q.destination_table .pnone = .pnone) :
    generate_job_config project_id q = .ok {} := by
  unfold generate_job_config
  simp [h, pure, Except.pure]

/-- Claim C10, witness: `specLegacyNoDest` carries `useLegacySql = true`
and a write disposition, yet the built configuration is the default one. -/
theorem claim_C10_default_config_witness :
    generate_job_config "proj" specLegacyNoDest = .ok {} :=
  claim_C10_default_config "proj" specLegacyNoDest rfl

/-- Claim C4, counterexample: the claim quantifies over every query spec,
but for a spec with `useLegacySql = true` and no destination table the
built configuration leaves `allow_large_results` unset (`none`), which is
not the spec's `useLegacySql` value `true`. -/
theorem claim_C4_counterexample :
    (generate_job_config "proj" specLegacyNoDest).map
        QueryJobConfig.allow_large_results = Except.ok none ∧
      (Except.ok (none : Option PyVal) :
          Except EngineError (Option PyVal)) ≠
        Except.ok (some (PyVal.pbool true)) :=
  ⟨rfl, by simp⟩

/-- Claim C4, amended: in every configuration `generate_job_config`
builds, `allow_large_results` equals the configuration's own
`use_legacy_sql` field; and whenever the spec names a destination table,
`allow_large_results` is exactly the spec's `useLegacySql` value (default
`false`) — in particular `useLegacySql = true` with a destination yields
`allow_large_results = true`. -/
theorem claim_C4_allow_large_results (project_id : String) (q : QueryDict)
    (cfg : QueryJobConfig) (h : generate_job_config project_id q = .ok cfg) :
    cfg.allow_large_results = cfg.use_legacy_sql ∧
      (dictGet q.destination_table .pnone ≠ .pnone →
        cfg.allow_large_results = some (dictGet q.use_legacy_sql (.pbool false))) := by
  unfold generate_job_config at h
  by_cases hd : dictGet q.destination_table .pnone = .pnone
  · simp [hd, pure, Except.pure] at h
    subst h
    simp [hd]
  · simp only [hd, if_false, if_neg hd] at h
    cases hdd : q.destination_dataset with
    | none => simp [dictItem, hdd, bind, Except.bind, pure, Except.pure] at h
    | some dd =>
      cases hdt : q.destination_table with
      | none => simp [dictItem, hdd, hdt, bind, Except.bind, pure, Except.pure] at h
      | some dt =>
        simp only [dictItem, hdd, hdt, bind, Except.bind, pure, Except.pure] at h
        cases hsp : splitId (project_id ++ "." ++ dd.pystr ++ "." ++ dt.pystr) with
        | nil => simp [TableReference.from_string, hsp, pure, Except.pure] at h
        | cons a l =>
          simp only [TableReference.from_string, hsp] at h
          match l with
          | [] => simp at h
          | [b] => simp at h
          | [b, c] =>
            simp [Except.map] at h
            subst h
            simp [hd]
          | b :: c :: e :: l' => simp at h

/-- Claim C4, witness: `specDestLegacy` (legacy SQL, destination set)
yields `cfgDestLegacy`, whose `allow_large_results` is `true`. -/
theorem claim_C4_allow_large_results_witness :
    cfgDestLegacy.allow_large_results = cfgDestLegacy.use_legacy_sql ∧
      (dictGet specDestLegacy.destination_table .pnone ≠ .pnone →
        cfgDestLegacy.allow_large_results =
          some (dictGet specDestLegacy.use_legacy_sql (.pbool false))) :=
  claim_C4_allow_large_results "proj" specDestLegacy cfgDestLegacy rfl

/-- Claim C5, counterexample: for the spec scenario
`{query: "SELECT 1", destinationTable: "t", destinationDataset: None}`
`generate_job_config` neither raises a validation error nor normalizes:
it returns a configuration whose destination reference was built from the
inconsistent pair, with the literal string `"None"` as its dataset id. -/
theorem claim_C5_counterexample :
    generate_job_config "proj" specDestNoneDataset = .ok cfgNoneDataset ∧
      cfgNoneDataset.destination = some ⟨"proj", "None", "t"⟩ :=
  ⟨rfl, rfl⟩

/-- Claim C5, amended: `generate_job_config` performs no
destination-consistency validation.  With `destinationTable` set and
`destinationDataset` bound to `None`, it builds a destination reference
whose dataset component is the f-string rendering `"None"`; only a
completely absent `destinationDataset` key raises, and then an
uncontrolled `KeyError`, not a validation error. -/
theorem claim_C5_no_validation (p t : String) (q q' : QueryDict)
    (hqt : q.destination_table = some (.pstr t))
    (hqd : q.destination_dataset = some .pnone)
    (hsplit : splitId (p ++ "." ++ "None" ++ "." ++ t) = [p, "None", t])
    (hq't : q'.destination_table = some (.pstr t))
    (hq'd : q'.destination_dataset = none) :
    (∃ cfg, generate_job_config p q = .ok cfg ∧
      cfg.destination = some ⟨p, "None", t⟩) ∧
    generate_job_config p q' = .error (.keyError "destination_dataset") := by
  constructor
  · unfold generate_job_config
    have hd : dictGet q.destination_table .pnone ≠ .pnone := by simp [dictGet, hqt]
    simp only [if_neg hd, dictItem, hqt, hqd, bind, Except.bind, pure, Except.pure]
    have hstr : (p ++ "." ++ PyVal.pnone.pystr ++ "." ++ (PyVal.pstr t).pystr) =
        (p ++ "." ++ "None" ++ "." ++ t) := by simp [PyVal.pystr]
    rw [TableReference.from_string, hstr, hsplit]
    exact ⟨_, rfl, rfl⟩
  · unfold generate_job_config
    have hd : dictGet q'.destination_table .pnone ≠ .pnone := by simp [dictGet, hq't]
    simp [if_neg hd, dictItem, hq'd, bind, Except.bind, pure, Except.pure]

/-- Claim C5, witness: the amended behavior at the concrete scenario
specs. -/
theorem claim_C5_no_validation_witness :
    (∃ cfg, generate_job_config "proj" specDestNoneDataset = .ok cfg ∧
      cfg.destination = some ⟨"proj", "None", "t"⟩) ∧
    generate_job_config "proj" specDestAbsentDataset =
      .error (.keyError "destination_dataset") :=
  claim_C5_no_validation "proj" "t" specDestNoneDataset specDestAbsentDataset
    rfl rfl rfl rfl rfl

/-! ### Theorems about the Parameter Resolver -/

/-- `get_custom_kwargs` computes exactly the branch on its local
`missing` list. -/
theorem get_custom_kwargs_eq (clazz : Clazz) (kwargs : List (String × PyVal)) :
    get_custom_kwargs clazz kwargs =
      if gckMissing clazz kwargs ≠ [] then
        .error (.missingParams (gckMissing clazz kwargs) clazz.name)
      else .ok (gckFiltered clazz kwargs) := rfl

/-- Boolean `contains` agrees with membership. -/
theorem contains_true_iff {α : Type} [BEq α] [LawfulBEq α] (l : List α) (x : α) :
    (l.contains x = true) ↔ x ∈ l := List.elem_iff

/-- Boolean `contains` failing agrees with non-membership. -/
theorem contains_false_iff {α : Type} [BEq α] [LawfulBEq α] (l : List α) (x : α) :
    (l.contains x = false) ↔ x ∉ l := by
  rw [← Bool.not_eq_true, not_iff_not]
  exact List.elem_iff

/-- An option survives the resolver's filter exactly when it was supplied
and its name matches a declared non-engine parameter. -/
theorem mem_gckFiltered (clazz : Clazz) (kwargs : List (String × PyVal))
    (kv : String × PyVal) :
    kv ∈ gckFiltered clazz kwargs ↔
      kv ∈ kwargs ∧ ∃ p ∈ clazz.params, p.name = kv.1 ∧
        kv.1 ∉ CLEAN_ENGINE_REQUIRED_PARAMS := by
  simp only [gckFiltered, gckRuleParams, List.mem_filter, List.mem_map,
    Bool.not_eq_true', contains_false_iff, contains_true_iff, Bool.and_eq_true]
  constructor
  · rintro ⟨hkv, p, ⟨hp, hpe⟩, hname⟩
    exact ⟨hkv, p, hp, hname, hname ▸ hpe⟩
  · rintro ⟨hkv, p, hp, hname, hne⟩
    exact ⟨hkv, p, ⟨hp, hname ▸ hne⟩, hname⟩

/-- For a declared non-engine parameter name, being supplied before and
after the resolver's filter coincide. -/
theorem fst_gckFiltered_iff (clazz : Clazz) (kwargs : List (String × PyVal))
    (p : Param) (hp : p ∈ clazz.params)
    (hpe : p.name ∉ CLEAN_ENGINE_REQUIRED_PARAMS) :
    (∃ a ∈ gckFiltered clazz kwargs, a.1 = p.name) ↔
      (∃ a ∈ kwargs, a.1 = p.name) := by
  constructor
  · rintro ⟨kv, hkv, hname⟩
    exact ⟨kv, ((mem_gckFiltered clazz kwargs kv).1 hkv).1, hname⟩
  · rintro ⟨kv, hkv, hname⟩
    exact ⟨kv, (mem_gckFiltered clazz kwargs kv).2
      ⟨hkv, p, hp, hname.symm, hname ▸ hpe⟩, hname⟩

/-- The resolver's `missing` list holds exactly the required non-engine
parameter names the caller did not supply. -/
theorem mem_gckMissing (clazz : Clazz) (kwargs : List (String × PyVal))
    (x : String) :
    x ∈ gckMissing clazz kwargs ↔ RequiredMissing clazz kwargs x := by
  simp only [gckMissing, gckRuleParams, List.mem_map, List.mem_filter,
    Bool.and_eq_true, Bool.not_eq_true', contains_false_iff, RequiredMissing]
  constructor
  · rintro ⟨p, ⟨⟨hp, hpe⟩, hnc, hreq⟩, hname⟩
    rw [fst_gckFiltered_iff clazz kwargs p hp hpe] at hnc
    exact ⟨p, hp, hname, hreq, hname ▸ hpe, hname ▸ hnc⟩
  · rintro ⟨p, hp, hname, hreq, hne, hnk⟩
    refine ⟨p, ⟨⟨hp, hname ▸ hne⟩, ?_, hreq⟩, hname⟩
    rw [fst_gckFiltered_iff clazz kwargs p hp (hname ▸ hne)]
    exact hname ▸ hnk

/-- Claim C3: when at least one required (no-default) non-engine
parameter is absent from the supplied options, the resolver raises the
missing-parameter error naming exactly the set of missing required
parameters (membership coincides, hence set equality), and `infer_rule`
raises that same error whatever the rule's shape — in particular before
any constructor could run, since the result does not depend on the
constructor at all. -/
theorem claim_C3_missing_parameter_error (clazz : Clazz)
    (project_id dataset_id sandbox_dataset_id table_namer : String)
    (kwargs : List (String × PyVal))
    (h : ∃ name, RequiredMissing clazz kwargs name) :
    ∃ missing, (∀ x, x ∈ missing ↔ RequiredMissing clazz kwargs x) ∧
      get_custom_kwargs clazz kwargs =
        .error (.missingParams missing clazz.name) ∧
      ∀ sh : ClazzShape,
        infer_rule { clazz with shape := sh } project_id dataset_id
            sandbox_dataset_id table_namer kwargs =
          .error (.missingParams missing clazz.name) := by
  obtain ⟨name, hname⟩ := h
  have hmem : name ∈ gckMissing clazz kwargs :=
    (mem_gckMissing clazz kwargs name).2 hname
  have hne : gckMissing clazz kwargs ≠ [] := by
    intro he
    rw [he] at hmem
    exact absurd hmem (List.not_mem_nil name)
  have hgck : ∀ sh : ClazzShape,
      get_custom_kwargs { clazz with shape := sh } kwargs =
        .error (.missingParams (gckMissing clazz kwargs) clazz.name) := by
    intro sh
    have heq : gckMissing { clazz with shape := sh } kwargs =
        gckMissing clazz kwargs := rfl
    rw [get_custom_kwargs_eq, heq, if_pos hne]
  refine ⟨gckMissing clazz kwargs, fun x => mem_gckMissing clazz kwargs x, ?_, ?_⟩
  · rw [get_custom_kwargs_eq, if_pos hne]
  · intro sh
    unfold infer_rule
    rw [hgck sh]
    rfl

/-- Claim C3, witness: `clazzMissing` requires `truncation_date`, which
`kwargsCutoff` does not supply; the resolver reports exactly
`["truncation_date"]` whatever the rule's shape. -/
theorem claim_C3_missing_parameter_error_witness :
    (∃ missing,
      (∀ x, x ∈ missing ↔ RequiredMissing clazzMissing kwargsCutoff x) ∧
      get_custom_kwargs clazzMissing kwargsCutoff =
        .error (.missingParams missing clazzMissing.name) ∧
      ∀ sh : ClazzShape,
        infer_rule { clazzMissing with shape := sh } "p" "d" "s" ""
            kwargsCutoff =
          .error (.missingParams missing clazzMissing.name)) ∧
    get_custom_kwargs clazzMissing kwargsCutoff =
      .error (.missingParams ["truncation_date"] "truncation_rule") := by
  refine ⟨claim_C3_missing_parameter_error clazzMissing "p" "d" "s" ""
    kwargsCutoff ?_, rfl⟩
  refine ⟨"truncation_date", ⟨"truncation_date", true⟩, ?_, rfl, rfl, ?_, ?_⟩
  · simp [clazzMissing]
  · decide
  · simp [kwargsCutoff]

/-- Claim C7: when no required parameter is missing, the resolver
returns, without raising, exactly the supplied entries whose names match
a declared non-engine parameter — every other supplied option is
dropped. -/
theorem claim_C7_option_filtering (clazz : Clazz)
    (kwargs : List (String × PyVal))
    (h : ∀ x, ¬ RequiredMissing clazz kwargs x) :
    get_custom_kwargs clazz kwargs = .ok (gckFiltered clazz kwargs) ∧
      ∀ kv, kv ∈ gckFiltered clazz kwargs ↔
        (kv ∈ kwargs ∧ ∃ p ∈ clazz.params, p.name = kv.1 ∧
          kv.1 ∉ CLEAN_ENGINE_REQUIRED_PARAMS) := by
  have hnil : gckMissing clazz kwargs = [] := by
    rcases he : gckMissing clazz kwargs with _ | ⟨x, xs⟩
    · rfl
    · exfalso
      refine h x ((mem_gckMissing clazz kwargs x).1 ?_)
      rw [he]
      exact List.mem_cons_self x xs
  refine ⟨?_, fun kv => mem_gckFiltered clazz kwargs kv⟩
  rw [get_custom_kwargs_eq, hnil]
  simp

/-- Claim C7, witness: the spec scenario — `cutoff_date` is kept, the
undeclared `extra` is dropped, and no error is raised. -/
theorem claim_C7_option_filtering_witness :
    (get_custom_kwargs clazzCutoff kwargsCutoff =
        .ok (gckFiltered clazzCutoff kwargsCutoff) ∧
      ∀ kv, kv ∈ gckFiltered clazzCutoff kwargsCutoff ↔
        (kv ∈ kwargsCutoff ∧ ∃ p ∈ clazzCutoff.params, p.name = kv.1 ∧
          kv.1 ∉ CLEAN_ENGINE_REQUIRED_PARAMS)) ∧
    gckFiltered clazzCutoff kwargsCutoff =
      [("cutoff_date", .pstr "2022-01-01")] := by
  have h : ∀ x, ¬ RequiredMissing clazzCutoff kwargsCutoff x := by
    rintro x ⟨p, hp, hname, hreq, hne, hnk⟩
    simp [clazzCutoff] at hp
    rcases hp with h1 | h2
    · subst h1
      apply hne
      rw [← hname]
      decide
    · subst h2
      apply hnk
      rw [← hname]
      simp [kwargsCutoff]
  exact ⟨claim_C7_option_filtering clazzCutoff kwargsCutoff h, rfl⟩

/-! ### Theorems about the Rule Adapter -/

/-- When no required parameter is missing, the resolver succeeds with the
filtered options. -/
theorem get_custom_kwargs_ok (clazz : Clazz) (kwargs : List (String × PyVal))
    (h : ∀ x, ¬ RequiredMissing clazz kwargs x) :
    get_custom_kwargs clazz kwargs = .ok (gckFiltered clazz kwargs) := by
  have hnil : gckMissing clazz kwargs = [] := by
    rcases he : gckMissing clazz kwargs with _ | ⟨x, xs⟩
    · rfl
    · exact absurd ((mem_gckMissing clazz kwargs x).1
        (he ▸ List.mem_cons_self x xs)) (h x)
  rw [get_custom_kwargs_eq, hnil]
  simp

/-- Claim C8: a structured rule whose constructor rejects the
table-namer argument with a `TypeError` is retried without it; the
adapter completes successfully with the retried instance and records the
compatibility warning — the rejected argument is not a hard failure. -/
theorem claim_C8_table_namer_fallback (clazz : Clazz) (s : StructuredShape)
    (inst : Instance)
    (project_id dataset_id sandbox_dataset_id table_namer : String)
    (kwargs : List (String × PyVal)) (msg m : String) (n : Nat)
    (hshape : clazz.shape = .structured s)
    (hkw : ∀ x, ¬ RequiredMissing clazz kwargs x)
    (hfail : s.construct project_id dataset_id sandbox_dataset_id
      (some table_namer) (gckFiltered clazz kwargs) = .error (.typeError msg))
    (hretry : s.construct project_id dataset_id sandbox_dataset_id none
      (gckFiltered clazz kwargs) = .ok inst)
    (hmod : clazz.module = some m) (hline : clazz.srcline = some n) :
    infer_rule clazz project_id dataset_id sandbox_dataset_id table_namer
        kwargs =
      .ok { query_list := inst.get_query_specs,
            setup_err := inst.setup_err,
            rule_info := ⟨"get_query_specs", m, n⟩,
            warnings :=
              [clazz.name ++ " does not accept the table_namer property yet."] } := by
  unfold infer_rule
  rw [get_custom_kwargs_ok clazz kwargs hkw]
  simp only [bind, Except.bind, hshape, hfail, hretry, hmod, hline]

/-- Claim C8, witness: `clazzOld` rejects the table namer, and the
adapter still resolves it, with the warning recorded. -/
theorem claim_C8_table_namer_fallback_witness :
    infer_rule clazzOld "p" "d" "s" "tn" [] =
      .ok { query_list := instOld.get_query_specs,
            setup_err := instOld.setup_err,
            rule_info := ⟨"get_query_specs", "rules.old_style", 33⟩,
            warnings :=
              [clazzOld.name ++ " does not accept the table_namer property yet."] } := by
  refine claim_C8_table_namer_fallback clazzOld shapeOld instOld "p" "d" "s"
    "tn" [] "unexpected keyword argument table_namer" "rules.old_style" 33
    rfl ?_ rfl rfl rfl rfl
  rintro x ⟨p, hp, -, -, -, -⟩
  simp [clazzOld] at hp

/-- Claim C9, counterexample: for a rule whose defining module cannot be
determined, the adapter throws (`inspect.getmodule(...)` is `None` and
reading `.__name__` raises `AttributeError`) instead of falling back to
an "unknown" placeholder. -/
theorem claim_C9_counterexample :
    infer_rule clazzNoModule "p" "d" "s" "" [] =
      .error (.attributeError "NoneType has no attribute __name__") := rfl

/-- Claim C9, amended: when a rule's defining module cannot be
determined, `infer_rule` raises the reflection `AttributeError` — on
both the legacy path and the structured path with a successful
construction — so the pipeline aborts; the code has no "unknown"
placeholder fallback. -/
theorem claim_C9_no_metadata_raises (clazz : Clazz)
    (project_id dataset_id sandbox_dataset_id table_namer : String)
    (kwargs : List (String × PyVal))
    (hkw : ∀ x, ¬ RequiredMissing clazz kwargs x)
    (hmod : clazz.module = none)
    (hok : (∃ f, clazz.shape = .legacy f) ∨
      (∃ s inst, clazz.shape = .structured s ∧
        s.construct project_id dataset_id sandbox_dataset_id
          (some table_namer) (gckFiltered clazz kwargs) = .ok inst)) :
    infer_rule clazz project_id dataset_id sandbox_dataset_id table_namer
        kwargs =
      .error (.attributeError "NoneType has no attribute __name__") := by
  unfold infer_rule
  rw [get_custom_kwargs_ok clazz kwargs hkw]
  rcases hok with ⟨f, hf⟩ | ⟨s, inst, hs, hc⟩
  · simp only [bind, Except.bind, hf, hmod]
  · simp only [bind, Except.bind, hs, hc, hmod]

/-- Claim C9, witness: the amended behavior at the concrete degraded
rule. -/
theorem claim_C9_no_metadata_raises_witness :
    infer_rule clazzNoModule "p2" "d2" "s2" "tn" [] =
      .error (.attributeError "NoneType has no attribute __name__") := by
  refine claim_C9_no_metadata_raises clazzNoModule "p2" "d2" "s2" "tn" [] ?_
    rfl (Or.inl ⟨_, rfl⟩)
  rintro x ⟨p, hp, -, -, -, -⟩
  simp [clazzNoModule] at hp

/-! ### Theorems about the Query Job Runner -/

/-- A successful submission decomposes into a built configuration and a
client answer. -/
theorem submittedJob_decomp (client : Client) (rule_info : RuleInfo)
    (q : QueryDict) (j : QueryJob)
    (hj : submittedJob client rule_info q = some j) :
    ∃ cfg, generate_job_config client.project q = .ok cfg ∧
      client.query (dictGet q.query .pnone) cfg
        (moduleShortName rule_info ++ "_") = .ok j := by
  unfold submittedJob at hj
  cases hcfg : generate_job_config client.project q with
  | error e => simp [hcfg] at hj
  | ok cfg =>
    simp only [hcfg] at hj
    cases hq : client.query (dictGet q.query .pnone) cfg
        (moduleShortName rule_info ++ "_") with
    | error e => simp [hq] at hj
    | ok j' =>
      simp only [hq, Option.some.injEq] at hj
      exact ⟨cfg, rfl, by rw [hq, hj]⟩

/-- A cleanly finishing query appends its job and the loop continues. -/
theorem runQueriesAux_good_step (client : Client) (rule_info : RuleInfo)
    (q : QueryDict) (rest : List QueryDict) (jobs : List QueryJob)
    (j : QueryJob) (hj : submittedJob client rule_info q = some j)
    (hres : j.result_err = none) (herr : j.errors = []) :
    runQueriesAux client rule_info (q :: rest) jobs =
      runQueriesAux client rule_info rest (jobs ++ [j]) := by
  obtain ⟨cfg, hcfg, hq⟩ := submittedJob_decomp client rule_info q j hj
  conv_lhs => rw [runQueriesAux]
  simp only [hcfg, hq, hres, herr]
  simp

/-- A query whose finished job carries errors appends its job and stops
the loop with the `RuntimeError`, ignoring the remaining queries. -/
theorem runQueriesAux_fail_step (client : Client) (rule_info : RuleInfo)
    (q : QueryDict) (rest : List QueryDict) (jobs : List QueryJob)
    (j : QueryJob) (hj : submittedJob client rule_info q = some j)
    (hres : j.result_err = none) (herr : j.errors ≠ []) :
    runQueriesAux client rule_info (q :: rest) jobs =
      (jobs ++ [j], some (.queryErrors rule_info
        (dictGet q.query .pnone) j.errors)) := by
  obtain ⟨cfg, hcfg, hq⟩ := submittedJob_decomp client rule_info q j hj
  conv_lhs => rw [runQueriesAux]
  simp only [hcfg, hq, hres, herr]
  simp [herr]

/-- A prefix of cleanly finishing queries contributes its jobs, in query
order, to the accumulator. -/
theorem runQueriesAux_good_run (client : Client) (rule_info : RuleInfo)
    (pre : List QueryDict)
    (hpre : ∀ q ∈ pre, ∃ j, submittedJob client rule_info q = some j ∧
      j.result_err = none ∧ j.errors = []) :
    ∀ (rest : List QueryDict) (jobs : List QueryJob),
      ∃ js, js.map some = pre.map (submittedJob client rule_info) ∧
        runQueriesAux client rule_info (pre ++ rest) jobs =
          runQueriesAux client rule_info rest (jobs ++ js) := by
  induction pre with
  | nil => intro rest jobs; exact ⟨[], rfl, by simp⟩
  | cons q pre ih =>
    intro rest jobs
    obtain ⟨j, hj, hres, herr⟩ := hpre q (List.mem_cons_self q pre)
    obtain ⟨js, hmap, hrun⟩ := ih (fun q hq => hpre q (List.mem_cons_of_mem _ hq))
      rest (jobs ++ [j])
    refine ⟨j :: js, ?_, ?_⟩
    · simp [hmap, hj]
    · rw [List.cons_append,
        runQueriesAux_good_step client rule_info q (pre ++ rest) jobs j hj hres herr,
        hrun]
      simp

/-- Claim C1, counterexample: the 2nd of 3 queries reports a non-empty
error list; the runner raises and the 3rd query is never submitted (the
internal `jobs` list holds exactly the first two jobs), but the raising
`run_queries` call returns no job sequence at all — the submitted jobs
are not recorded in any returned sequence the caller could observe. -/
theorem claim_C1_counterexample :
    run_queries clientEx [qGood, qBad, qNever] ruleInfoEx =
      .error (.queryErrors ruleInfoEx (.pstr "SELECT bad") ["boom"]) ∧
    (run_queries clientEx [qGood, qBad, qNever] ruleInfoEx).isOk = false ∧
    (runQueriesAux clientEx ruleInfoEx [qGood, qBad, qNever] []).1 =
      [jGoodEx, jBadEx] := ⟨rfl, rfl, rfl⟩

/-- Claim C1, amended: when the queries before `qf` finish cleanly and
`qf`'s finished job carries a non-empty error list, the runner raises
immediately — the loop state is exactly the jobs of the prefix (in query
order) plus the failing job, independent of the queries after `qf`,
which are therefore never submitted; the failing job is appended to the
runner's internal list before the error is raised, but `run_queries`
propagates the bare error, so the caller receives no partial job
sequence. -/
theorem claim_C1_fail_fast (client : Client) (rule_info : RuleInfo)
    (pre post : List QueryDict) (qf : QueryDict) (jf : QueryJob)
    (hpre : ∀ q ∈ pre, ∃ j, submittedJob client rule_info q = some j ∧
      j.result_err = none ∧ j.errors = [])
    (hjf : submittedJob client rule_info qf = some jf)
    (hres : jf.result_err = none) (herr : jf.errors ≠ []) :
    ∃ js, js.map some = pre.map (submittedJob client rule_info) ∧
      runQueriesAux client rule_info (pre ++ qf :: post) [] =
        (js ++ [jf], some (.queryErrors rule_info
          (dictGet qf.query .pnone) jf.errors)) ∧
      run_queries client (pre ++ qf :: post) rule_info =
        .error (.queryErrors rule_info (dictGet qf.query .pnone) jf.errors) := by
  obtain ⟨js, hmap, hrun⟩ := runQueriesAux_good_run client rule_info pre hpre
    (qf :: post) []
  have hfail := runQueriesAux_fail_step client rule_info qf post js jf hjf hres herr
  refine ⟨js, hmap, ?_, ?_⟩
  · rw [hrun]
    simpa using hfail
  · unfold run_queries
    rw [hrun]
    simp only [List.nil_append] at hfail ⊢
    rw [hfail]

/-- Claim C1, witness: the amended behavior at the concrete three-query
scenario. -/
theorem claim_C1_fail_fast_witness :
    ∃ js, js.map some = [qGood].map (submittedJob clientEx ruleInfoEx) ∧
      runQueriesAux clientEx ruleInfoEx ([qGood] ++ qBad :: [qNever]) [] =
        (js ++ [jBadEx], some (.queryErrors ruleInfoEx
          (dictGet qBad.query .pnone) jBadEx.errors)) ∧
      run_queries clientEx ([qGood] ++ qBad :: [qNever]) ruleInfoEx =
        .error (.queryErrors ruleInfoEx (dictGet qBad.query .pnone)
          jBadEx.errors) := by
  refine claim_C1_fail_fast clientEx ruleInfoEx [qGood] [qNever] qBad jBadEx
    ?_ rfl rfl ?_
  · intro q hq
    simp only [List.mem_singleton] at hq
    subst hq
    exact ⟨jGoodEx, rfl, rfl, rfl⟩
  · simp [jBadEx]

/-! ### Theorems about the Pipeline Driver -/

/-- A loop run that finishes without error yields exactly the
accumulator followed by one successfully submitted job per query, in
query order. -/
theorem runQueriesAux_ok_map (client : Client) (rule_info : RuleInfo)
    (query_list : List QueryDict) :
    ∀ (jobs0 jobs : List QueryJob),
      runQueriesAux client rule_info query_list jobs0 = (jobs, none) →
      jobs.map some = jobs0.map some ++
        query_list.map (submittedJob client rule_info) := by
  induction query_list with
  | nil =>
    intro jobs0 jobs h
    rw [runQueriesAux] at h
    simp only [Prod.mk.injEq] at h
    rw [← h.1]
    simp
  | cons q rest ih =>
    intro jobs0 jobs h
    rw [runQueriesAux] at h
    cases hcfg : generate_job_config client.project q with
    | error e => simp [hcfg] at h
    | ok cfg =>
      simp only [hcfg] at h
      cases hq : client.query (dictGet q.query .pnone) cfg
          (moduleShortName rule_info ++ "_") with
      | error e => simp [hq] at h
      | ok j =>
        simp only [hq] at h
        cases hres : j.result_err with
        | some e => simp [hres] at h
        | none =>
          simp only [hres] at h
          by_cases herr : j.errors = []
          · simp only [herr, ne_eq, not_true_eq_false, if_false] at h
            have hsub : submittedJob client rule_info q = some j := by
              unfold submittedJob
              simp only [hcfg, hq]
            have := ih (jobs0 ++ [j]) jobs h
            simpa [hsub] using this
          · simp [if_pos herr] at h

/-- A successful driver loop decomposes into per-rule adaptations and
per-rule job lists, flattened in rule order after the accumulator. -/
theorem cleanDatasetAux_ok (client : Client)
    (project_id dataset_id sandbox_dataset_id table_namer : String)
    (kwargs : List (String × PyVal)) (rules : List Rule) :
    ∀ (acc jobs : List QueryJob),
      cleanDatasetAux client project_id dataset_id sandbox_dataset_id
        table_namer kwargs rules acc = .ok jobs →
      ∃ rs js, ruleResolutions project_id dataset_id sandbox_dataset_id rules
          table_namer kwargs = .ok rs ∧
        js.length = rs.length ∧
        jobs = acc ++ js.flatten ∧
        ∀ pr ∈ rs.zip js,
          run_queries client pr.1.query_list pr.1.rule_info = .ok pr.2 := by
  induction rules with
  | nil =>
    intro acc jobs h
    rw [cleanDatasetAux] at h
    simp only [Except.ok.injEq] at h
    exact ⟨[], [], rfl, rfl, by simp [← h], by simp⟩
  | cons rule rest ih =>
    intro acc jobs h
    rw [cleanDatasetAux] at h
    cases hinf : infer_rule rule.clazz project_id dataset_id
        sandbox_dataset_id table_namer kwargs with
    | error e => simp [hinf] at h
    | ok res =>
      simp only [hinf] at h
      cases hsetup : res.setup_err with
      | some e => simp [hsetup] at h
      | none =>
        simp only [hsetup] at h
        cases hrq : run_queries client res.query_list res.rule_info with
        | error e => simp [hrq] at h
        | ok jobs1 =>
          simp only [hrq] at h
          obtain ⟨rs, js, hres, hlen, hjobs, hall⟩ := ih (acc ++ jobs1) jobs h
          refine ⟨res :: rs, jobs1 :: js, ?_, by simp [hlen], by simp [hjobs], ?_⟩
          · simp only [ruleResolutions] at hres ⊢
            rw [List.mapM_cons, hinf, hres]
            rfl
          · intro pr hpr
            rcases List.mem_cons.1 hpr with hpr1 | hpr2
            · subst hpr1
              exact hrq
            · exact hall pr hpr2

/-- The preview loop is the per-rule adaptation followed by flattening
the produced query lists after the accumulator. -/
theorem getQueryListAux_eq
    (project_id dataset_id sandbox_dataset_id table_namer : String)
    (kwargs : List (String × PyVal)) (rules : List Rule) :
    ∀ acc, getQueryListAux project_id dataset_id sandbox_dataset_id
        table_namer kwargs rules acc =
      Except.map (fun rs => acc ++ (rs.map RuleResolution.query_list).flatten)
        (ruleResolutions project_id dataset_id sandbox_dataset_id rules
          table_namer kwargs) := by
  induction rules with
  | nil =>
    intro acc
    rw [getQueryListAux]
    have hnil : ruleResolutions project_id dataset_id sandbox_dataset_id []
        table_namer kwargs = .ok [] := rfl
    rw [hnil]
    simp [Except.map]
  | cons rule rest ih =>
    intro acc
    rw [getQueryListAux]
    cases hinf : infer_rule rule.clazz project_id dataset_id
        sandbox_dataset_id table_namer kwargs with
    | error e =>
      simp only [ruleResolutions, List.mapM_cons, hinf]
      rfl
    | ok res =>
      simp only [hinf, ih (acc ++ res.query_list), ruleResolutions,
        List.mapM_cons, hinf]
      cases hrest : rest.mapM (fun rule => infer_rule rule.clazz project_id
          dataset_id sandbox_dataset_id table_namer kwargs) with
      | error e => rfl
      | ok rs => simp [Except.map, bind, Except.bind, pure, Except.pure]

/-- Claim C2: a successful `clean_dataset` run returns the per-rule job
lists flattened in rule-list order, and within each rule the jobs are,
in order, the submissions of that rule's query-spec list. -/
theorem claim_C2_job_ordering (client : Client)
    (project_id dataset_id sandbox_dataset_id table_namer : String)
    (kwargs : List (String × PyVal)) (rules : List Rule)
    (jobs : List QueryJob)
    (h : clean_dataset client project_id dataset_id sandbox_dataset_id rules
      table_namer kwargs = .ok jobs) :
    ∃ rs js, ruleResolutions project_id dataset_id sandbox_dataset_id rules
        table_namer kwargs = .ok rs ∧
      js.length = rs.length ∧
      jobs = js.flatten ∧
      ∀ pr ∈ rs.zip js,
        run_queries client pr.1.query_list pr.1.rule_info = .ok pr.2 ∧
        pr.2.map some = pr.1.query_list.map (submittedJob client pr.1.rule_info) := by
  obtain ⟨rs, js, hres, hlen, hjobs, hall⟩ := cleanDatasetAux_ok client
    project_id dataset_id sandbox_dataset_id table_namer kwargs rules [] jobs h
  refine ⟨rs, js, hres, hlen, by simpa using hjobs, ?_⟩
  intro pr hpr
  refine ⟨hall pr hpr, ?_⟩
  have hrq := hall pr hpr
  unfold run_queries at hrq
  cases haux : runQueriesAux client pr.1.rule_info pr.1.query_list [] with
  | mk jbs oe =>
    rw [haux] at hrq
    cases oe with
    | some e => simp at hrq
    | none =>
      simp only [Except.ok.injEq] at hrq
      have := runQueriesAux_ok_map client pr.1.rule_info pr.1.query_list [] jbs haux
      rw [hrq] at this
      simpa using this

/-- Claim C2, witness: the two-rule pipeline `[A, B]` under `clientEx`
returns A's job before B's two jobs, which follow B's query order. -/
theorem claim_C2_job_ordering_witness :
    ∃ rs js,
      ruleResolutions "p" "d" "s" rulesAB "" [] = .ok rs ∧
      js.length = rs.length ∧
      ([⟨"a_mod_job", [], none⟩, ⟨"b_mod_job", [], none⟩,
        ⟨"b_mod_job", [], none⟩] : List QueryJob) = js.flatten ∧
      ∀ pr ∈ rs.zip js,
        run_queries clientEx pr.1.query_list pr.1.rule_info = .ok pr.2 ∧
        pr.2.map some = pr.1.query_list.map (submittedJob clientEx pr.1.rule_info) :=
  claim_C2_job_ordering clientEx "p" "d" "s" "" [] rulesAB
    [⟨"a_mod_job", [], none⟩, ⟨"b_mod_job", [], none⟩, ⟨"b_mod_job", [], none⟩]
    rfl

/-- Claim C6: `get_query_list` factors through exactly the same
adaptation (`infer_rule`, via `ruleResolutions`) as the execution path:
its result is the rule-by-rule concatenation of the adapted query lists,
and whenever `clean_dataset` succeeds, `get_query_list` returns the
concatenation of the very query lists the execution ran. -/
theorem claim_C6_preview_parity
    (project_id dataset_id sandbox_dataset_id table_namer : String)
    (kwargs : List (String × PyVal)) (rules : List Rule) :
    get_query_list project_id dataset_id sandbox_dataset_id rules table_namer
        kwargs =
      Except.map (fun rs => (rs.map RuleResolution.query_list).flatten)
        (ruleResolutions project_id dataset_id sandbox_dataset_id rules
          table_namer kwargs) ∧
    ∀ (client : Client) (jobs : List QueryJob),
      clean_dataset client project_id dataset_id sandbox_dataset_id rules
        table_namer kwargs = .ok jobs →
      ∃ rs, ruleResolutions project_id dataset_id sandbox_dataset_id rules
          table_namer kwargs = .ok rs ∧
        get_query_list project_id dataset_id sandbox_dataset_id rules
          table_namer kwargs =
          .ok ((rs.map RuleResolution.query_list).flatten) := by
  have hq : get_query_list project_id dataset_id sandbox_dataset_id rules
      table_namer kwargs =
    Except.map (fun rs => (rs.map RuleResolution.query_list).flatten)
      (ruleResolutions project_id dataset_id sandbox_dataset_id rules
        table_namer kwargs) := by
    unfold get_query_list
    rw [getQueryListAux_eq]
    simp
  refine ⟨hq, ?_⟩
  intro client jobs h
  obtain ⟨rs, js, hres, -, -, -⟩ := cleanDatasetAux_ok client project_id
    dataset_id sandbox_dataset_id table_namer kwargs rules [] jobs h
  refine ⟨rs, hres, ?_⟩
  rw [hq, hres]
  rfl

/-- Claim C6, witness: preview/execution parity at the concrete
pipeline, with the preview list evaluated. -/
theorem claim_C6_preview_parity_witness :
    ((get_query_list "p" "d" "s" rulesAB "" [] =
      Except.map (fun rs => (rs.map RuleResolution.query_list).flatten)
        (ruleResolutions "p" "d" "s" rulesAB "" [])) ∧
    ∀ (client : Client) (jobs : List QueryJob),
      clean_dataset client "p" "d" "s" rulesAB "" [] = .ok jobs →
      ∃ rs, ruleResolutions "p" "d" "s" rulesAB "" [] = .ok rs ∧
        get_query_list "p" "d" "s" rulesAB "" [] =
          .ok ((rs.map RuleResolution.query_list).flatten)) ∧
    get_query_list "p" "d" "s" rulesAB "" [] = .ok [qGood, qTwo, qGood] :=
  ⟨claim_C6_preview_parity "p" "d" "s" "" [] rulesAB, rfl⟩

end CleanCdrEngine
